import Mathlib

/-!
Verification of the large-order classification logic of the
StockAnalyLargeOrders frontend.

The definitions below are shallow embeddings of the JavaScript functions in
`src/frontend/src/store/atoms.js` and
`src/frontend/src/pages/StockDashboard/components/StockChart.js`.
JavaScript numbers are modelled as rationals (ℚ), integer counters as ℕ/ℤ,
and the provider records as structures holding exactly the fields the
embedded functions read.
-/

namespace StockAnaly

/-- Tier categories returned by `determineCategory` in atoms.js
(strings 'D300', 'D100', 'D50', 'D30', 'under_D30' in the source). -/
inductive Category
  | D300
  | D100
  | D50
  | D30
  | under_D30
deriving DecidableEq, Repr

/-- Embedding of `determineCategory` (atoms.js lines 185-191):
`if (amount >= 3000000) return 'D300'; if (amount >= 1000000) return 'D100';
if (amount >= 500000) return 'D50'; if (amount >= 300000) return 'D30';
return 'under_D30';` -/
def determineCategory (amount : ℚ) : Category :=
  if amount ≥ 3000000 then .D300
  else if amount ≥ 1000000 then .D100
  else if amount ≥ 500000 then .D50
  else if amount ≥ 300000 then .D30
  else .under_D30

/-- Rank of a tier: `under_D30` lowest, `D300` highest.  Used to state
monotonicity of the tier assignment. -/
def Category.rank : Category → ℕ
  | .under_D30 => 0
  | .D30 => 1
  | .D50 => 2
  | .D100 => 3
  | .D300 => 4

/-- Order size labels returned by `determineOrderSize` in atoms.js. -/
inductive OrderSize
  | large
  | medium
  | small
deriving DecidableEq, Repr

/-- Embedding of `determineOrderSize` (atoms.js lines 300-304). -/
def determineOrderSize (amount : ℚ) : OrderSize :=
  if amount ≥ 3000000 then .large
  else if amount ≥ 1000000 then .medium
  else .small

/-- Trade direction of a converted order (`type: 'buy' | 'sell'`). -/
inductive TradeType
  | buy
  | sell
deriving DecidableEq, Repr

/-- An entry of `largeOrdersData.largeOrders` as consumed by
`getAmountLevelStats` (StockChart.js): the fields the function reads are
`amount` and `type`; `price` and `volume` are carried along because the
records constructed in atoms.js also hold them. -/
structure Order where
  type : TradeType
  price : ℚ
  volume : ℤ
  amount : ℚ
deriving DecidableEq, Repr

/-- A raw order of a provider `dadan_list` response, holding the fields read
by `fetchLargeOrdersAtom` and `fetchRealtimeDataAtom` in atoms.js.  Numeric
strings are modelled after parsing (`parseFloat`/`parseInt`); the optional
provider `category` is `none` when absent or falsy. -/
structure RawOrder where
  status : String
  is_buy : Bool
  price : ℚ
  volume : ℤ
  amount : ℚ
  category : Option Category
deriving DecidableEq, Repr

/-- Embedding of the `orders.map(order => ...)` conversion of
`fetchLargeOrdersAtom` (atoms.js lines 129-136): the constructed record's
`amount` is `parseFloat(order.amount) * 10000` (万元 to 元). -/
def convertLargeOrder (o : RawOrder) : Order :=
  { type := if o.status = "被买" ∨ o.status = "主买" then .buy else .sell
    price := o.price
    volume := o.volume
    amount := o.amount * 10000 }

/-- Which tier the conversion records for a raw order:
`order.category || determineCategory(parseFloat(order.amount) * 10000)`. -/
def convertedCategory (o : RawOrder) : Category :=
  o.category.getD (determineCategory (o.amount * 10000))

/-- A `recentTrades` entry as constructed by `fetchRealtimeDataAtom`
(atoms.js lines 277-284). -/
structure Trade where
  buy : Bool
  price : ℚ
  volume : ℤ
  amount : ℚ
  order_size : OrderSize
deriving DecidableEq, Repr

/-- Embedding of the element conversion of `fetchRealtimeDataAtom`
(atoms.js lines 277-284): `buy` is true when the status marks a buy or the
provider `is_buy` flag is set, and `amount` is again
`parseFloat(order.amount) * 10000`. -/
def convertRealtimeTrade (o : RawOrder) : Trade :=
  { buy := (o.status = "被买" ∨ o.status = "主买") ∨ o.is_buy
    price := o.price
    volume := o.volume
    amount := o.amount * 10000
    order_size := determineOrderSize (o.amount * 10000) }

/-- Embedding of `recentTrades` in `fetchRealtimeDataAtom`:
`orders.slice(0, 20).map(order => ...)`. -/
def recentTrades (orders : List RawOrder) : List Trade :=
  (orders.take 20).map convertRealtimeTrade

/-- Per-level accumulator of `getAmountLevelStats`
(`{ buy: 0, sell: 0, totalAmount: 0, buyAmount: 0, sellAmount: 0 }`). -/
structure ALevel where
  buy : ℕ
  sell : ℕ
  totalAmount : ℚ
  buyAmount : ℚ
  sellAmount : ℚ
deriving DecidableEq, Repr

/-- Initial per-level accumulator (all zero). -/
def ALevel.init : ALevel := ⟨0, 0, 0, 0, 0⟩

/-- The four buckets `stats[300], stats[100], stats[50], stats[30]` of
`getAmountLevelStats`. -/
structure AStats where
  l300 : ALevel
  l100 : ALevel
  l50 : ALevel
  l30 : ALevel
deriving DecidableEq, Repr

/-- Initial statistics record of `getAmountLevelStats`. -/
def AStats.init : AStats := ⟨.init, .init, .init, .init⟩

/-- Adding one order to a level bucket: the body of the
`if (order.type === 'buy') ... else ...` block followed by
`stats[level].totalAmount += amountWan` in `getAmountLevelStats`. -/
def ALevel.add (l : ALevel) (t : TradeType) (amountWan : ℚ) : ALevel :=
  match t with
  | .buy =>
      { l with buy := l.buy + 1, buyAmount := l.buyAmount + amountWan,
               totalAmount := l.totalAmount + amountWan }
  | .sell =>
      { l with sell := l.sell + 1, sellAmount := l.sellAmount + amountWan,
               totalAmount := l.totalAmount + amountWan }

/-- One iteration of the `orders.forEach` loop of `getAmountLevelStats`
(StockChart.js lines 1222-1240): `amountWan = order.amount / 10000`; level
chosen by `>= 300 / >= 100 / >= 50 / >= 30`; orders below 30 are skipped
(`else return`). -/
def aStatsStep (stats : AStats) (o : Order) : AStats :=
  let amountWan := o.amount / 10000
  if amountWan ≥ 300 then { stats with l300 := stats.l300.add o.type amountWan }
  else if amountWan ≥ 100 then { stats with l100 := stats.l100.add o.type amountWan }
  else if amountWan ≥ 50 then { stats with l50 := stats.l50.add o.type amountWan }
  else if amountWan ≥ 30 then { stats with l30 := stats.l30.add o.type amountWan }
  else stats

/-- Embedding of `getAmountLevelStats` (StockChart.js lines 1211-1243). -/
def getAmountLevelStats (orders : List Order) : AStats :=
  orders.foldl aStatsStep AStats.init

/-- One entry of a `big_map` time bucket in StockChart.js: `v` is the amount
in 万元 (`parseFloat(item.v)`), `t` the direction code (`parseInt(item.t)`). -/
structure BigItem where
  v : ℚ
  t : ℤ
deriving DecidableEq, Repr

/-- Per-level accumulator of `getLargeOrderSummaryData`
(`{ buy_count: 0, sell_count: 0, buy_amount: 0, sell_amount: 0 }`). -/
structure LevelAgg where
  buy_count : ℕ
  sell_count : ℕ
  buy_amount : ℚ
  sell_amount : ℚ
deriving DecidableEq, Repr

/-- Initial per-level accumulator (all zero). -/
def LevelAgg.init : LevelAgg := ⟨0, 0, 0, 0⟩

/-- The five buckets `levelStats.D300 ... levelStats.under_D30` of
`getLargeOrderSummaryData`. -/
structure LevelStats where
  D300 : LevelAgg
  D100 : LevelAgg
  D50 : LevelAgg
  D30 : LevelAgg
  under_D30 : LevelAgg
deriving DecidableEq, Repr

/-- Initial statistics record of `getLargeOrderSummaryData`. -/
def LevelStats.init : LevelStats := ⟨.init, .init, .init, .init, .init⟩

/-- Adding one item to a level bucket: the `if (isBuy) ... else ...` block of
`getLargeOrderSummaryData` (StockChart.js lines 908-914). -/
def LevelAgg.add (a : LevelAgg) (isBuy : Bool) (v : ℚ) : LevelAgg :=
  if isBuy then
    { a with buy_count := a.buy_count + 1, buy_amount := a.buy_amount + v }
  else
    { a with sell_count := a.sell_count + 1, sell_amount := a.sell_amount + v }

/-- One iteration of the `timeData.forEach` loop of
`getLargeOrderSummaryData` (StockChart.js lines 884-916): items whose `t`
marks a buy (1, 2) or a sell (3, 4) go to the level selected by
`v >= 300 / >= 100 / >= 50 / >= 30 / else`, other items are ignored. -/
def summaryStep (s : LevelStats) (item : BigItem) : LevelStats :=
  let isBuy : Bool := item.t == 1 || item.t == 2
  let isSell : Bool := item.t == 3 || item.t == 4
  if isBuy || isSell then
    if item.v ≥ 300 then { s with D300 := s.D300.add isBuy item.v }
    else if item.v ≥ 100 then { s with D100 := s.D100.add isBuy item.v }
    else if item.v ≥ 50 then { s with D50 := s.D50.add isBuy item.v }
    else if item.v ≥ 30 then { s with D30 := s.D30.add isBuy item.v }
    else { s with under_D30 := s.under_D30.add isBuy item.v }
  else s

/-- Embedding of `getLargeOrderSummaryData` (StockChart.js lines 867-939):
the `big_map` object is modelled as the list of its time buckets in
iteration order (non-array buckets are skipped by the code and therefore
omitted from the model). -/
def getLargeOrderSummaryData (bigMap : List (List BigItem)) : LevelStats :=
  bigMap.foldl (fun s timeData => timeData.foldl summaryStep s) LevelStats.init

/-- Total money across the four buckets of `getAmountLevelStats`
(in 万元, the unit the function accumulates in). -/
def AStats.amountSum (s : AStats) : ℚ :=
  (s.l300.buyAmount + s.l300.sellAmount) + (s.l100.buyAmount + s.l100.sellAmount) +
    (s.l50.buyAmount + s.l50.sellAmount) + (s.l30.buyAmount + s.l30.sellAmount)

/-- Total money across the five buckets of `getLargeOrderSummaryData`. -/
def LevelStats.amountSum (s : LevelStats) : ℚ :=
  (s.D300.buy_amount + s.D300.sell_amount) + (s.D100.buy_amount + s.D100.sell_amount) +
    (s.D50.buy_amount + s.D50.sell_amount) + (s.D30.buy_amount + s.D30.sell_amount) +
    (s.under_D30.buy_amount + s.under_D30.sell_amount)

/-- Contribution of one order to the buckets of `getAmountLevelStats`:
its amount in 万元 when it reaches a bucket (≥ 30万), zero otherwise. -/
def Order.bucketedWan (o : Order) : ℚ :=
  if o.amount / 10000 ≥ 30 then o.amount / 10000 else 0

/-- Contribution of one `big_map` item to the buckets of
`getLargeOrderSummaryData`: its `v` when its `t` marks a buy or sell,
zero otherwise. -/
def BigItem.bucketedV (item : BigItem) : ℚ :=
  if item.t == 1 || item.t == 2 || item.t == 3 || item.t == 4 then item.v else 0

/-- Color of one volume bar in StockChart.js: red `#ff4d4f` marks a
buy-leaning bar, green `#52c41a` a sell-leaning bar, gray `#808080` the
default used when no price is available. -/
inductive VolColor
  | red
  | green
  | gray
deriving DecidableEq, Repr

/-- Embedding of the bar-color computation of `volumeData`
(StockChart.js lines 425-433), the branch taken when the bar has a time
point and a non-zero volume.  JavaScript truthiness of `fenshi[index]` is
modelled as the price being defined and non-zero (`List.getD _ _ 0 ≠ 0`,
out-of-range indices giving the falsy 0). -/
def volColorAt (fenshi : List ℚ) (prevClosePrice : ℚ) (i : ℕ) : VolColor :=
  if 0 < i ∧ fenshi.getD i 0 ≠ 0 ∧ fenshi.getD (i - 1) 0 ≠ 0 then
    if fenshi.getD i 0 ≥ fenshi.getD (i - 1) 0 then .red else .green
  else if fenshi.getD i 0 ≠ 0 then
    if fenshi.getD i 0 ≥ prevClosePrice then .red else .green
  else .gray

/-- One minute step of `generateTimeAxisByLength` (StockChart.js lines
184-194), on times modelled as minutes since midnight (09:30 = 570):
advance one minute (`currentMinute++` with the hour rollover), then skip
the lunch break (11:31, i.e. 691, jumps to 13:00, i.e. 780). -/
def nextMinute (t : ℕ) : ℕ :=
  let t1 := t + 1
  if t1 = 691 then 780 else t1

/-- The `for` loop of `generateTimeAxisByLength` (StockChart.js lines
180-200): push the current time, step, and break once the stepped time is
15:01 (901). -/
def genTimePoints : ℕ → ℕ → List ℕ
  | 0, _ => []
  | n + 1, t =>
      let t2 := nextMinute t
      if t2 = 901 then [t] else t :: genTimePoints n t2

/-- Embedding of `generateTimeAxisByLength` (StockChart.js lines 175-208):
run the loop from 09:30 (570), then append 15:00 (900) if it is missing.
Times are minutes since midnight; the zero-padded `HH:MM` strings of the
source are in bijection with these values. -/
def generateTimeAxisByLength (n : ℕ) : List ℕ :=
  let timePoints := genTimePoints n 570
  if 900 ∈ timePoints then timePoints else timePoints ++ [900]

/-- A time lies in the trading day: in the morning session [09:30, 11:30]
or the afternoon session [13:00, 15:00] (minutes since midnight). -/
def tradingTime (t : ℕ) : Prop :=
  (570 ≤ t ∧ t ≤ 690) ∨ (780 ≤ t ∧ t ≤ 900)

end StockAnaly

namespace StockAnaly

/-- C1: the tier-assignment function evaluates the default thresholds
3,000,000 / 1,000,000 / 500,000 / 300,000 from highest to lowest with ≥
comparisons and assigns exactly one tier: the result is `D300` exactly on
`[3000000, ∞)`, `D100` exactly on `[1000000, 3000000)`, `D50` exactly on
`[500000, 1000000)`, `D30` exactly on `[300000, 500000)`, and `under_D30`
exactly on `(-∞, 300000)`. -/
theorem determineCategory_tier_characterization (a : ℚ) :
    (determineCategory a = .D300 ↔ 3000000 ≤ a) ∧
    (determineCategory a = .D100 ↔ 1000000 ≤ a ∧ a < 3000000) ∧
    (determineCategory a = .D50 ↔ 500000 ≤ a ∧ a < 1000000) ∧
    (determineCategory a = .D30 ↔ 300000 ≤ a ∧ a < 500000) ∧
    (determineCategory a = .under_D30 ↔ a < 300000) := by
  unfold determineCategory
  split_ifs with h1 h2 h3 h4 <;>
    refine ⟨?_, ?_, ?_, ?_, ?_⟩ <;>
    constructor <;> intro h <;> simp_all <;> linarith

/-- C2: tier assignment is total (every amount gets exactly one tier) and
monotone: increasing the amount never decreases the tier rank. -/
theorem determineCategory_monotone (a b : ℚ) :
    (a ≤ b → (determineCategory a).rank ≤ (determineCategory b).rank) ∧
    (∃! c : Category, determineCategory a = c) := by
  constructor
  · intro hab
    unfold determineCategory
    split_ifs with h1 h2 h3 h4 h5 h6 h7 h8 h9 h10 h11 h12 h13 h14 <;>
      simp [Category.rank] <;> linarith
  · exact ⟨determineCategory a, rfl, fun c hc => hc.symm⟩

/-- Witness for C2 at a concrete pair of amounts. -/
theorem determineCategory_monotone_witness :
    (determineCategory 400000).rank ≤ (determineCategory 2000000).rank :=
  (determineCategory_monotone 400000 2000000).1 (by norm_num)

/-- C3: for ticks with price 10.0 and volumes 50,000 and 200,000 (amounts
500,000 and 2,000,000), `determineCategory` assigns `D50` and `D100`
respectively, and in `getAmountLevelStats` each of the corresponding level
buckets (≥50万 and ≥100万) ends with buy count plus sell count equal to 1. -/
theorem classify_example_two_ticks :
    determineCategory (10 * 50000) = .D50 ∧
    determineCategory (10 * 200000) = .D100 ∧
    (let stats := getAmountLevelStats
        [⟨.buy, 10, 50000, 500000⟩, ⟨.sell, 10, 200000, 2000000⟩]
     stats.l50.buy + stats.l50.sell = 1 ∧
     stats.l100.buy + stats.l100.sell = 1) := by
  refine ⟨by norm_num [determineCategory], by norm_num [determineCategory], ?_, ?_⟩ <;>
    simp [getAmountLevelStats, aStatsStep, AStats.init, ALevel.init, ALevel.add] <;>
    norm_num

/-- Adding one order changes the total bucketed money of
`getAmountLevelStats` by exactly the order's bucketed contribution. -/
lemma aStatsStep_amountSum (s : AStats) (o : Order) :
    (aStatsStep s o).amountSum = s.amountSum + o.bucketedWan := by
  simp only [aStatsStep, Order.bucketedWan]
  cases o.type <;> split_ifs <;>
    simp [AStats.amountSum, ALevel.add] <;> linarith

/-- Folding `aStatsStep` over a list adds the bucketed contributions of its
elements to the total bucketed money. -/
lemma foldl_aStatsStep_amountSum (orders : List Order) (s : AStats) :
    (orders.foldl aStatsStep s).amountSum
      = s.amountSum + (orders.map Order.bucketedWan).sum := by
  induction orders generalizing s with
  | nil => simp
  | cons o rest ih =>
      simp only [List.foldl_cons, List.map_cons, List.sum_cons, ih, aStatsStep_amountSum]
      ring

/-- Adding one `big_map` item changes the total bucketed money of
`getLargeOrderSummaryData` by exactly the item's bucketed contribution. -/
lemma summaryStep_amountSum (s : LevelStats) (item : BigItem) :
    (summaryStep s item).amountSum = s.amountSum + item.bucketedV := by
  simp only [summaryStep, BigItem.bucketedV, LevelAgg.add]
  rcases item with ⟨v, t⟩
  split_ifs <;> simp_all [LevelStats.amountSum] <;> linarith

/-- Folding `summaryStep` over one time bucket adds the bucketed
contributions of its items. -/
lemma foldl_summaryStep_amountSum (items : List BigItem) (s : LevelStats) :
    (items.foldl summaryStep s).amountSum
      = s.amountSum + (items.map BigItem.bucketedV).sum := by
  induction items generalizing s with
  | nil => simp
  | cons item rest ih =>
      simp only [List.foldl_cons, List.map_cons, List.sum_cons, ih, summaryStep_amountSum]
      ring

/-- Folding the per-time-bucket loop over the whole `big_map` adds the
bucketed contributions of all items of all buckets. -/
lemma foldl_summary_outer_amountSum (bigMap : List (List BigItem)) (s : LevelStats) :
    (bigMap.foldl (fun s timeData => timeData.foldl summaryStep s) s).amountSum
      = s.amountSum + (bigMap.map (fun td => (td.map BigItem.bucketedV).sum)).sum := by
  induction bigMap generalizing s with
  | nil => simp
  | cons td rest ih =>
      simp only [List.foldl_cons, List.map_cons, List.sum_cons, ih,
        foldl_summaryStep_amountSum]
      ring

/-- C4 counterexample: a single well-formed buy order of amount 100,000
(price 10, volume 10,000) contributes to no bucket of
`getAmountLevelStats`: the per-tier amounts sum to 0 while the order
amounts sum to 100,000, so the claimed conservation fails (in both 万元
and 元 units). -/
theorem conservation_counterexample :
    (getAmountLevelStats [⟨.buy, 10, 10000, 100000⟩]).amountSum = 0 ∧
    (([⟨.buy, 10, 10000, 100000⟩] : List Order).map Order.amount).sum = 100000 ∧
    (0 : ℚ) ≠ 100000 ∧ (0 : ℚ) * 10000 ≠ 100000 := by
  refine ⟨?_, by norm_num, by norm_num, by norm_num⟩
  simp [getAmountLevelStats, aStatsStep, AStats.init, ALevel.init, AStats.amountSum]
  norm_num

/-- C4 amended: conservation holds only over the items that reach a bucket.
For `getLargeOrderSummaryData` the five tier buckets absorb exactly the `v`
of every item whose `t` marks a buy or sell (1-4); other items contribute
nothing.  For `getAmountLevelStats` the four buckets absorb exactly
`amount/10000` of every order with amount ≥ 300,000; orders below that are
dropped from every bucket and counted nowhere. -/
theorem tier_amount_conservation (bigMap : List (List BigItem)) (orders : List Order) :
    (getLargeOrderSummaryData bigMap).amountSum
      = (bigMap.map (fun td => (td.map BigItem.bucketedV).sum)).sum ∧
    (getAmountLevelStats orders).amountSum
      = (orders.map Order.bucketedWan).sum := by
  constructor
  · rw [getLargeOrderSummaryData, foldl_summary_outer_amountSum]
    simp [LevelStats.init, LevelAgg.init, LevelStats.amountSum]
  · rw [getAmountLevelStats, foldl_aStatsStep_amountSum]
    simp [AStats.init, ALevel.init, AStats.amountSum]

/-- C7 counterexample: an order with zero price and zero volume (malformed
in the spec's sense) whose amount field is 4,000,000 is not discarded by
`getAmountLevelStats`: it is classified into the ≥300万 bucket, whose buy
count becomes 1. -/
theorem malformed_not_discarded_counterexample :
    (getAmountLevelStats [⟨.buy, 0, 0, 4000000⟩]).l300.buy = 1 := by
  simp [getAmountLevelStats, aStatsStep, AStats.init, ALevel.init, ALevel.add]
  norm_num

/-- C7 amended: the classification never inspects price or volume, so
zero-volume or zero/negative-price ticks are neither discarded nor counted:
rewriting the price and volume of every order arbitrarily leaves the tier
statistics unchanged, and the statistics consist solely of the per-tier
counts and amounts (no malformed count is produced). -/
theorem tier_stats_ignore_price_volume (orders : List Order)
    (f : Order → ℚ) (g : Order → ℤ) :
    getAmountLevelStats (orders.map fun o => { o with price := f o, volume := g o })
      = getAmountLevelStats orders := by
  simp only [getAmountLevelStats]
  suffices h : ∀ s : AStats,
      ((orders.map fun o => { o with price := f o, volume := g o }).foldl aStatsStep s)
        = orders.foldl aStatsStep s from h _
  induction orders with
  | nil => intro s; rfl
  | cons o rest ih =>
      intro s
      simp only [List.map_cons, List.foldl_cons]
      have hstep : aStatsStep s { o with price := f o, volume := g o } = aStatsStep s o := rfl
      rw [hstep]
      exact ih _

/-- C5 counterexample: for a raw order with price 10, volume 100 and
provider amount 50 (万元), both conversions set the record's amount to
50 × 10000 = 500,000, while price × volume = 1,000 — the amount is taken
from the provider field (unit-converted), not recomputed as
price × volume. -/
theorem amount_recompute_counterexample :
    (convertLargeOrder ⟨"主买", true, 10, 100, 50, none⟩).amount = 500000 ∧
    (convertRealtimeTrade ⟨"主买", true, 10, 100, 50, none⟩).amount = 500000 ∧
    (10 : ℚ) * 100 = 1000 ∧ (500000 : ℚ) ≠ 1000 := by
  refine ⟨?_, ?_, by norm_num, by norm_num⟩ <;>
    simp [convertLargeOrder, convertRealtimeTrade] <;> norm_num

/-- C5 amended: the amount of every constructed order/trade record is the
provider-supplied amount multiplied by 10000 (万元 to 元 unit conversion);
it does not depend on the price or volume fields at all, so it is never
price × volume in general. -/
theorem amount_from_provider_field (o : RawOrder) (p : ℚ) (v : ℤ) :
    (convertLargeOrder o).amount = o.amount * 10000 ∧
    (convertRealtimeTrade o).amount = o.amount * 10000 ∧
    (convertLargeOrder { o with price := p, volume := v }).amount
      = (convertLargeOrder o).amount ∧
    (convertRealtimeTrade { o with price := p, volume := v }).amount
      = (convertRealtimeTrade o).amount :=
  ⟨rfl, rfl, rfl, rfl⟩

/-- C8: tier assignment and both tier-statistics aggregations are pure
functions of their inputs — two runs on equal inputs produce equal
outputs, and re-running changes nothing (the embedded functions read no
state besides their arguments, matching the JavaScript functions, which
mutate only function-local accumulators). -/
theorem classify_deterministic_idempotent (a : ℚ)
    (orders₁ orders₂ : List Order) (bigMap₁ bigMap₂ : List (List BigItem)) :
    orders₁ = orders₂ → bigMap₁ = bigMap₂ →
      determineCategory a = determineCategory a ∧
      getAmountLevelStats orders₁ = getAmountLevelStats orders₂ ∧
      getLargeOrderSummaryData bigMap₁ = getLargeOrderSummaryData bigMap₂ := by
  rintro rfl rfl
  exact ⟨rfl, rfl, rfl⟩

/-- Witness for C8 at concrete inputs. -/
theorem classify_deterministic_idempotent_witness :
    determineCategory 0 = determineCategory 0 ∧
    getAmountLevelStats [] = getAmountLevelStats [] ∧
    getLargeOrderSummaryData [] = getLargeOrderSummaryData [] :=
  classify_deterministic_idempotent 0 [] [] [] [] rfl rfl

/-- C9: the realtime `recentTrades` list is exactly the element-wise
conversion of the first min(20, length) provider orders, in order: it has
length min(20, length), hence never more than 20 entries, and its i-th
entry is the conversion of the i-th input order for every index below 20. -/
theorem recentTrades_mapped_initial_segment (orders : List RawOrder) :
    (recentTrades orders).length = min 20 orders.length ∧
    (recentTrades orders).length ≤ 20 ∧
    ∀ i : ℕ, i < 20 →
      (recentTrades orders)[i]? = (orders[i]?).map convertRealtimeTrade := by
  refine ⟨by simp [recentTrades], by simp [recentTrades], fun i hi => ?_⟩
  simp [recentTrades, List.getElem?_take, hi]

/-- Witness for C9 at a concrete order list and index. -/
theorem recentTrades_mapped_initial_segment_witness :
    (recentTrades [⟨"被买", false, 10, 100, 50, none⟩])[0]?
      = ([(⟨"被买", false, 10, 100, 50, none⟩ : RawOrder)][0]?).map convertRealtimeTrade :=
  (recentTrades_mapped_initial_segment [⟨"被买", false, 10, 100, 50, none⟩]).2.2 0 (by norm_num)

/-- C6: with positive prices at every index, the bar color realizes the
direction rule: index i > 0 is buy-leaning (red) exactly when its price is
at least the immediately preceding price, and index 0 compares against the
previous close instead. -/
theorem volume_direction_rule (fenshi : List ℚ) (pc : ℚ) (i : ℕ)
    (hpos : ∀ x ∈ fenshi, 0 < x) (hi : i < fenshi.length) :
    volColorAt fenshi pc i =
      if fenshi.getD i 0 ≥ (if i = 0 then pc else fenshi.getD (i - 1) 0)
      then VolColor.red else VolColor.green := by
  have hgi : fenshi.getD i 0 ≠ 0 := by
    have hmem : fenshi.getD i 0 ∈ fenshi := by
      rw [List.getD_eq_getElem fenshi 0 hi]
      exact List.getElem_mem hi
    exact ne_of_gt (hpos _ hmem)
  rcases Nat.eq_zero_or_pos i with h0 | h0
  · subst h0
    simp only [volColorAt]
    rw [if_neg (by simp), if_pos hgi]
    simp
  · have hi1 : i - 1 < fenshi.length := by omega
    have hgi1 : fenshi.getD (i - 1) 0 ≠ 0 := by
      have hmem : fenshi.getD (i - 1) 0 ∈ fenshi := by
        rw [List.getD_eq_getElem fenshi 0 hi1]
        exact List.getElem_mem hi1
      exact ne_of_gt (hpos _ hmem)
    have hne : i ≠ 0 := by omega
    simp only [volColorAt]
    rw [if_pos ⟨h0, hgi, hgi1⟩, if_neg hne]

/-- Witness for C6: prices [10, 9] with previous close 9, at index 1. -/
theorem volume_direction_rule_witness :
    volColorAt [10, 9] 9 1
      = if List.getD [(10 : ℚ), 9] 1 0 ≥ (if (1 : ℕ) = 0 then (9 : ℚ) else List.getD [(10 : ℚ), 9] (1 - 1) 0)
        then VolColor.red else VolColor.green :=
  volume_direction_rule [10, 9] 9 1 (by norm_num) (by norm_num)

/-- Stepping a minute always moves time strictly forward. -/
lemma nextMinute_gt (t : ℕ) : t < nextMinute t := by
  simp only [nextMinute]
  split_ifs <;> omega

/-- Stepping a minute from a trading time either leaves the trading day
(reaching 15:01) or stays inside it. -/
lemma nextMinute_tradingTime (t : ℕ) (h : tradingTime t) :
    nextMinute t = 901 ∨ tradingTime (nextMinute t) := by
  simp only [nextMinute, tradingTime] at *
  split_ifs <;> omega

/-- The loop always emits its starting time first. -/
lemma genTimePoints_head (n t : ℕ) : (genTimePoints (n + 1) t).head? = some t := by
  simp only [genTimePoints]
  split_ifs <;> rfl

/-- Every time the loop emits from a trading time is a trading time. -/
lemma genTimePoints_tradingTime (n : ℕ) :
    ∀ t, tradingTime t → ∀ x ∈ genTimePoints n t, tradingTime x := by
  induction n with
  | zero => intro t ht x hx; simp [genTimePoints] at hx
  | succ m ih =>
      intro t ht x hx
      simp only [genTimePoints] at hx
      by_cases h9 : nextMinute t = 901
      · simp [h9] at hx
        exact hx ▸ ht
      · simp [h9] at hx
        rcases hx with rfl | hx
        · exact ht
        · exact ih _ ((nextMinute_tradingTime t ht).resolve_left h9) x hx

/-- The loop's output is strictly increasing. -/
lemma genTimePoints_chain (n : ℕ) :
    ∀ t, List.Chain' (· < ·) (genTimePoints n t) := by
  induction n with
  | zero => intro t; simp [genTimePoints]
  | succ m ih =>
      intro t
      simp only [genTimePoints]
      split_ifs with h9
      · simp
      · rw [List.chain'_cons']
        refine ⟨fun y hy => ?_, ih _⟩
        cases m with
        | zero => simp [genTimePoints] at hy
        | succ k =>
            rw [genTimePoints_head] at hy
            have hy' : nextMinute t = y := by simpa using hy
            exact hy' ▸ nextMinute_gt t


/-- Consecutive entries the loop emits are one `nextMinute` step apart. -/
lemma genTimePoints_step_chain (n : ℕ) :
    ∀ t, List.Chain' (fun a b => b = nextMinute a) (genTimePoints n t) := by
  induction n with
  | zero => intro t; simp [genTimePoints]
  | succ m ih =>
      intro t
      simp only [genTimePoints]
      split_ifs with h9
      · simp
      · rw [List.chain'_cons']
        refine ⟨fun y hy => ?_, ih _⟩
        cases m with
        | zero => simp [genTimePoints] at hy
        | succ k =>
            rw [genTimePoints_head] at hy
            have hy' : nextMinute t = y := by simpa using hy
            exact hy'.symm

/-- Consing onto a nonempty list keeps its last element. -/
lemma getLast?_cons_of_ne_nil {α : Type} (a : α) (l : List α) (h : l ≠ []) :
    (a :: l).getLast? = l.getLast? := by
  cases l with
  | nil => exact absurd rfl h
  | cons b l' => simp [List.getLast?]

/-- When the loop emits 15:00 it is the final emitted entry. -/
lemma genTimePoints_mem_900_last (n : ℕ) :
    ∀ t, tradingTime t → 900 ∈ genTimePoints n t →
      (genTimePoints n t).getLast? = some 900 := by
  induction n with
  | zero => intro t ht h; simp [genTimePoints] at h
  | succ m ih =>
      intro t ht h
      simp only [genTimePoints] at h ⊢
      by_cases h9 : nextMinute t = 901
      · simp [h9] at h ⊢
        omega
      · simp only [h9, if_false] at h ⊢
        rcases List.mem_cons.mp h with h900 | hmem
        · exfalso
          apply h9
          rw [← h900]
          rfl
        · have hne : genTimePoints m (nextMinute t) ≠ [] := List.ne_nil_of_mem hmem
          rw [getLast?_cons_of_ne_nil _ _ hne]
          exact ih _ ((nextMinute_tradingTime t ht).resolve_left h9) hmem

/-- C10 counterexample: the axis for requested length 0 is the single entry
15:00 (900 minutes), which is not 09:30 (570), and the axis for length 1 is
[09:30, 15:00], whose single step is 330 minutes rather than one minute. -/
theorem time_axis_counterexample :
    (generateTimeAxisByLength 0 = [900] ∧ (900 : ℕ) ≠ 570) ∧
    (generateTimeAxisByLength 1 = [570, 900] ∧ (900 : ℕ) ≠ 570 + 1) := by
  decide

/-- C10 amended: for every requested length n ≥ 1, the axis starts at 09:30
(570), is strictly increasing, contains only trading-day times — so no time
strictly between 11:30 (690) and 13:00 (780) and none past 15:00 (900) —
ends with 15:00, and within the loop-generated prefix consecutive entries
advance by exactly one trading minute; the closing 15:00 may be appended
directly after the prefix.  (For n = 0 the axis is the single entry 15:00.) -/
theorem time_axis_properties (n : ℕ) (hn : 1 ≤ n) :
    (generateTimeAxisByLength n).head? = some 570 ∧
    List.Chain' (· < ·) (generateTimeAxisByLength n) ∧
    (∀ t ∈ generateTimeAxisByLength n, tradingTime t) ∧
    (generateTimeAxisByLength n).getLast? = some 900 ∧
    List.Chain' (fun a b => b = nextMinute a) (genTimePoints n 570) := by
  obtain ⟨m, rfl⟩ : ∃ m, n = m + 1 := ⟨n - 1, by omega⟩
  have h570 : tradingTime 570 := by simp only [tradingTime]; omega
  have hval : ∀ x ∈ genTimePoints (m + 1) 570, tradingTime x :=
    genTimePoints_tradingTime _ _ h570
  have hchain : List.Chain' (· < ·) (genTimePoints (m + 1) 570) :=
    genTimePoints_chain _ _
  have hhead : (genTimePoints (m + 1) 570).head? = some 570 :=
    genTimePoints_head _ _
  simp only [generateTimeAxisByLength]
  by_cases hmem : 900 ∈ genTimePoints (m + 1) 570
  · simp only [hmem, if_true]
    exact ⟨hhead, hchain, hval, genTimePoints_mem_900_last _ _ h570 hmem,
      genTimePoints_step_chain _ _⟩
  · simp only [hmem, if_false]
    obtain ⟨rest, hrest⟩ : ∃ rest, genTimePoints (m + 1) 570 = 570 :: rest := by
      cases hpts : genTimePoints (m + 1) 570 with
      | nil => rw [hpts] at hhead; simp at hhead
      | cons a l =>
          rw [hpts] at hhead
          simp only [List.head?_cons, Option.some_inj] at hhead
          exact ⟨l, by rw [hhead]⟩
    refine ⟨?_, ?_, ?_, ?_, genTimePoints_step_chain _ _⟩
    · rw [hrest]
      rfl
    · rw [List.chain'_append]
      refine ⟨hchain, by simp, fun x hx y hy => ?_⟩
      have hy' : (900 : ℕ) = y := by simpa using hy
      have hxmem : x ∈ genTimePoints (m + 1) 570 := by
        obtain ⟨hne, hxl⟩ := List.mem_getLast?_eq_getLast hx
        exact hxl ▸ List.getLast_mem hne
      have hxv := hval x hxmem
      have hx900 : x ≠ 900 := fun hc => hmem (hc ▸ hxmem)
      rcases hxv with ⟨_, hx2⟩ | ⟨_, hx2⟩ <;> omega
    · intro t ht
      rcases List.mem_append.mp ht with h | h
      · exact hval t h
      · have : t = 900 := by simpa using h
        subst this
        simp only [tradingTime]
        omega
    · exact List.getLast?_concat _

/-- Witness for C10 at the concrete requested length 2. -/
theorem time_axis_properties_witness :
    (generateTimeAxisByLength 2).head? = some 570 ∧
    List.Chain' (· < ·) (generateTimeAxisByLength 2) ∧
    (∀ t ∈ generateTimeAxisByLength 2, tradingTime t) ∧
    (generateTimeAxisByLength 2).getLast? = some 900 ∧
    List.Chain' (fun a b => b = nextMinute a) (genTimePoints 2 570) :=
  time_axis_properties 2 (by norm_num)

end StockAnaly
